import Mathlib

/-
  Verification of the authentication/authorization core and the mutating
  resolvers of the graphql-courses-list backend.

  Embedded from:
  - src/auth/auth.js  (generateToken, hashPassword, authenticate)
  - src/db/schema.js  (resolvers: addCourse, updateCourse, deleteCourse in its
    two versions, register, login)

  Machine model:
  - Database state is a pair of lists (users, courses); SQL statements of the
    resolvers (single-row SELECT by key, INSERT ... RETURNING *, UPDATE with
    COALESCE, DELETE by id) are embedded as the corresponding list operations.
  - The jsonwebtoken library is external; it is modelled by its documented
    contract: sign(payload, key, expiresIn 3h) produces a self-contained
    token string carrying the payload, iat = now, exp = now + 10800 and the
    signing key; verify(token, key) succeeds exactly when the token parses,
    was signed with the same symmetric key, and now < exp, and any failure
    (including a missing token) is caught by authenticate and turned into
    `none` (anonymous). The compact serialization is modelled by a concrete
    injective, space-free codec, matching the base64url wire format's relevant
    properties (spaces never occur inside a token).
  - The md5 hash (crypto, external) is an abstract function parameter.
-/

namespace GqlCourses

/-- A row of the `users` table: columns id (uuid), username, password
(the stored md5 digest), role. `SELECT * FROM users` yields whole rows. -/
structure UserRow where
  id : String
  username : String
  password : String
  role : String
deriving DecidableEq

/-- A row of the `courses` table. -/
structure Course where
  id : Int
  title : String
  category : String
  description : String
  duration : Int
  outcome : String
deriving DecidableEq

/-- A decoded JWT: the signed payload (the whole user row that was passed to
`sign`), the issued-at and expiry timestamps (seconds), and the key it was
signed with (modelling the symmetric signature). -/
structure Jwt where
  payload : UserRow
  iat : Nat
  exp : Nat
  sig : String
deriving DecidableEq

/-- Database state. -/
structure Db where
  users : List UserRow
  courses : List Course
deriving DecidableEq

/-! ### Token wire codec

A concrete injective encoding of a `Jwt` into a space-free string, standing in
for the compact JWS serialization (header.claims.signature in base64url, an
alphabet that never contains a space). Naturals are written in unary with a
terminator, characters by their code points. -/

/-- Encode a natural in unary, terminated by a dot. -/
def encNat (n : Nat) : List Char :=
  List.replicate n 'x' ++ ['.']

/-- Decode one unary natural; return it with the unconsumed rest. -/
def decNat : List Char → Option (Nat × List Char)
  | [] => none
  | c :: rest =>
    if c = '.' then some (0, rest)
    else if c = 'x' then
      match decNat rest with
      | some (n, r) => some (n + 1, r)
      | none => none
    else none

/-- Encode a list of characters by their code points. -/
def encCodes : List Char → List Char
  | [] => []
  | c :: cs => encNat c.toNat ++ encCodes cs

/-- Decode `k` characters from their code points. -/
def decCodes : Nat → List Char → Option (List Char × List Char)
  | 0, r => some ([], r)
  | k + 1, r =>
    match decNat r with
    | none => none
    | some (n, r₁) =>
      match decCodes k r₁ with
      | none => none
      | some (cs, r₂) => some (Char.ofNat n :: cs, r₂)

/-- Encode a string: its length, then its characters. -/
def encStr (s : String) : List Char :=
  encNat s.length ++ encCodes s.data

/-- Decode a string. -/
def decStr (r : List Char) : Option (String × List Char) :=
  match decNat r with
  | none => none
  | some (k, r₁) =>
    match decCodes k r₁ with
    | none => none
    | some (cs, r₂) => some (String.mk cs, r₂)

/-- Serialize a `Jwt` to its token string. -/
def encodeJwt (t : Jwt) : String :=
  String.mk (encStr t.payload.id ++ encStr t.payload.username ++
    encStr t.payload.password ++ encStr t.payload.role ++
    encNat t.iat ++ encNat t.exp ++ encStr t.sig)

/-- Parse a token string back into a `Jwt`; `none` on any malformed input. -/
def decodeJwt (s : String) : Option Jwt :=
  match decStr s.data with
  | none => none
  | some (i, r₁) =>
    match decStr r₁ with
    | none => none
    | some (u, r₂) =>
      match decStr r₂ with
      | none => none
      | some (p, r₃) =>
        match decStr r₃ with
        | none => none
        | some (ro, r₄) =>
          match decNat r₄ with
          | none => none
          | some (ia, r₅) =>
            match decNat r₅ with
            | none => none
            | some (ex, r₆) =>
              match decStr r₆ with
              | none => none
              | some (sg, r₇) =>
                if r₇ = [] then some ⟨⟨i, u, p, ro⟩, ia, ex, sg⟩ else none

theorem decNat_encNat (n : Nat) (r : List Char) :
    decNat (encNat n ++ r) = some (n, r) := by
  induction n with
  | zero => simp [encNat, decNat]
  | succ k ih =>
    have h : encNat (k + 1) ++ r = 'x' :: (encNat k ++ r) := by
      simp [encNat, List.replicate_succ]
    rw [h]
    simp [decNat, ih]

theorem decCodes_encCodes (l r : List Char) :
    decCodes l.length (encCodes l ++ r) = some (l, r) := by
  induction l with
  | nil => simp [encCodes, decCodes]
  | cons c cs ih =>
    simp [encCodes, decCodes, List.append_assoc, decNat_encNat, ih,
      Char.ofNat_toNat]

theorem decStr_encStr (s : String) (r : List Char) :
    decStr (encStr s ++ r) = some (s, r) := by
  obtain ⟨l⟩ := s
  have h : encStr (String.mk l) ++ r = encNat l.length ++ (encCodes l ++ r) := by
    simp [encStr, List.append_assoc]
  rw [h]
  simp [decStr, decNat_encNat, decCodes_encCodes]

theorem decStr_encStr_nil (s : String) : decStr (encStr s) = some (s, []) := by
  have h := decStr_encStr s []
  rwa [List.append_nil] at h

theorem decodeJwt_encodeJwt (t : Jwt) : decodeJwt (encodeJwt t) = some t := by
  have hdata : (encodeJwt t).data =
      encStr t.payload.id ++ (encStr t.payload.username ++
        (encStr t.payload.password ++ (encStr t.payload.role ++
        (encNat t.iat ++ (encNat t.exp ++ encStr t.sig))))) := by
    simp [encodeJwt, List.append_assoc]
  simp [decodeJwt, hdata, decStr_encStr, decNat_encNat, decStr_encStr_nil]

theorem mem_encNat {c : Char} {n : Nat} (h : c ∈ encNat n) :
    c = 'x' ∨ c = '.' := by
  simp only [encNat, List.mem_append, List.mem_replicate, List.mem_singleton] at h
  rcases h with h | h
  · exact Or.inl h.2
  · exact Or.inr h

theorem mem_encCodes {c : Char} {l : List Char} (h : c ∈ encCodes l) :
    c = 'x' ∨ c = '.' := by
  induction l with
  | nil => simp [encCodes] at h
  | cons d ds ih =>
    simp only [encCodes, List.mem_append] at h
    rcases h with h | h
    · exact mem_encNat h
    · exact ih h

theorem mem_encStr {c : Char} {s : String} (h : c ∈ encStr s) :
    c = 'x' ∨ c = '.' := by
  simp only [encStr, List.mem_append] at h
  rcases h with h | h
  · exact mem_encNat h
  · exact mem_encCodes h

theorem space_not_mem_encodeJwt (t : Jwt) : ' ' ∉ (encodeJwt t).data := by
  intro h
  simp only [encodeJwt] at h
  have h2 : (' ' : Char) = 'x' ∨ (' ' : Char) = '.' := by
    simp only [List.mem_append] at h
    rcases h with ((((((h | h) | h) | h) | h) | h) | h)
    all_goals first
      | exact mem_encStr h
      | exact mem_encNat h
  rcases h2 with h2 | h2 <;> exact absurd h2 (by decide)

/-! ### Header splitting

JavaScript's `str.split(' ')` splits on every single space character,
producing (possibly empty) fragments; `parts[1]` is `undefined` when there is
no second fragment. -/

/-- Split a character list on a separator, JS `String.prototype.split` style. -/
def splitChar (sep : Char) : List Char → List (List Char)
  | [] => [[]]
  | c :: cs =>
    if c = sep then [] :: splitChar sep cs
    else
      match splitChar sep cs with
      | [] => [[c]]
      | h :: t => (c :: h) :: t

theorem splitChar_ne_nil (sep : Char) (l : List Char) : splitChar sep l ≠ [] := by
  cases l with
  | nil => simp [splitChar]
  | cons c cs =>
    simp only [splitChar]
    split
    · simp
    · split <;> simp

theorem splitChar_of_not_mem (sep : Char) (a : List Char) (ha : sep ∉ a) :
    splitChar sep a = [a] := by
  induction a with
  | nil => simp [splitChar]
  | cons c cs ih =>
    simp only [List.mem_cons, not_or] at ha
    rw [splitChar, if_neg (fun h => ha.1 h.symm), ih ha.2]

theorem splitChar_append (sep : Char) (a b : List Char) (ha : sep ∉ a) :
    splitChar sep (a ++ sep :: b) = a :: splitChar sep b := by
  induction a with
  | nil => simp [splitChar]
  | cons c cs ih =>
    simp only [List.mem_cons, not_or] at ha
    rw [List.cons_append, splitChar, if_neg (fun h => ha.1 h.symm), ih ha.2]

/-! ### auth.js: generateToken, hashPassword, authenticate

`hashPassword` wraps the external md5 primitive from `crypto`; all functions
that call it take the primitive as an explicit parameter `md5`. The
process-wide secret `key` (env JWT_SECRET_KEY) and the wall clock `now`
(seconds) are likewise explicit parameters. -/

/-- Model of `jwt.sign(payload, key, expiresIn)`: stamps iat = now,
exp = now + expiresIn seconds, and signs with `key`. -/
def jwtSign (u : UserRow) (key : String) (now expiresIn : Nat) : String :=
  encodeJwt { payload := u, iat := now, exp := now + expiresIn, sig := key }

/-- Embedding of `generateToken(user)` from auth.js: `sign(user, key, { expiresIn: '3h' })`.
Note the payload is the whole `user` row, and 3h = 10800 seconds. -/
def generateToken (u : UserRow) (key : String) (now : Nat) : String :=
  jwtSign u key now 10800

/-- Model of `jwt.verify(token, key)` lifted over an optional token, returning `none`
instead of throwing: `none` for a missing token (JS `undefined`), a token that
does not parse, a signature made with a different key, or an expired token
(jsonwebtoken rejects once now ≥ exp, with no leeway configured). -/
def jwtVerify (token : Option String) (key : String) (now : Nat) : Option Jwt :=
  match token with
  | none => none
  | some s =>
    match decodeJwt s with
    | none => none
    | some t =>
      if t.sig = key then
        if now < t.exp then some t else none
      else none

/-- The `Authorization`-relevant part of an HTTP request's headers. -/
structure Headers where
  authorization : Option String
deriving DecidableEq

/-- An inbound HTTP request, reduced to what `authenticate` reads. -/
structure Request where
  headers : Headers
deriving DecidableEq

/-- Build the request `authenticate` sees from an optional
`Authorization` header value. -/
def mkReq (auth : Option String) : Request := { headers := { authorization := auth } }

/-- Embedding of `authenticate(req)` from auth.js:
`const token = req.headers.authorization?.split(' ')[1];`
then `try { return verify(token, key) } catch { return undefined }`. -/
def authenticate (req : Request) (key : String) (now : Nat) : Option Jwt :=
  match req.headers.authorization with
  | none => jwtVerify none key now
  | some h =>
    jwtVerify (((splitChar ' ' h.data).map String.mk).get? 1) key now

/-! ### schema.js resolvers

Each mutating resolver is embedded as a function from its arguments and the
context `{ client (the Db state), user (the authenticated identity) }` to a
pair of the GraphQL outcome (`Except` of the thrown error message) and the
database state after the call. Ids generated by the database (serial course
ids, user uuids) are explicit parameters. -/

/-- Embedding of `addCourse.resolve`: rejects when `!user`, otherwise
`INSERT INTO courses ... RETURNING *`. -/
def addCourse (newId : Int) (db : Db) (ctxUser : Option UserRow)
    (title category description : String) (duration : Int) (outcome : String) :
    Except String Course × Db :=
  match ctxUser with
  | none => (Except.error "Unauthorized, invalid or missing token", db)
  | some _ =>
    let c : Course := { id := newId, title := title, category := category,
                        description := description, duration := duration,
                        outcome := outcome }
    (Except.ok c, { db with courses := db.courses ++ [c] })

/-- The effect of `UPDATE courses SET field = COALESCE($n, field)` on one row:
a null (absent) argument keeps the stored value. -/
def coalesceCourse (c : Course) (title category description : Option String)
    (duration : Option Int) (outcome : Option String) : Course :=
  { c with
    title := title.getD c.title,
    category := category.getD c.category,
    description := description.getD c.description,
    duration := duration.getD c.duration,
    outcome := outcome.getD c.outcome }

/-- Embedding of `updateCourse.resolve`: rejects when `!user`, otherwise runs the COALESCE
update `WHERE id = $1` and returns `rows[0]` of `RETURNING *` (JS `undefined`,
i.e. `none`, when no row matched). -/
def updateCourse (db : Db) (ctxUser : Option UserRow) (id : Int)
    (title category description : Option String) (duration : Option Int)
    (outcome : Option String) : Except String (Option Course) × Db :=
  match ctxUser with
  | none => (Except.error "Unauthorized, invalid or missing token", db)
  | some _ =>
    let updated := db.courses.map (fun c =>
      if c.id = id then coalesceCourse c title category description duration outcome
      else c)
    (Except.ok ((updated.filter (fun c => c.id == id)).head?),
     { db with courses := updated })

/-- Embedding of `deleteCourse.resolve`, first version in schema.js (lines 180-192):
one combined guard `if (!user || user.role !== "Admin")` with a single error
message, then fetch, not-found check, delete, and return of the snapshot. -/
def deleteCourse (db : Db) (ctxUser : Option UserRow) (id : Int) :
    Except String Course × Db :=
  match ctxUser with
  | none => (Except.error "Unauthorized, only admins can delete courses", db)
  | some u =>
    if u.role ≠ "Admin" then
      (Except.error "Unauthorized, only admins can delete courses", db)
    else
      match db.courses.find? (fun c => c.id == id) with
      | none => (Except.error ("Course with ID " ++ toString id ++ " not found"), db)
      | some c =>
        (Except.ok c, { db with courses := db.courses.filter (fun c => !(c.id == id)) })

/-- Embedding of `deleteCourse.resolve`, second version in schema.js (lines 392-409):
separate guards `if (!user) throw "Unauthorized"` and
`if (user.role !== "Admin") throw "Unauthorized, only admins can delete courses"`. -/
def deleteCourseV2 (db : Db) (ctxUser : Option UserRow) (id : Int) :
    Except String Course × Db :=
  match ctxUser with
  | none => (Except.error "Unauthorized", db)
  | some u =>
    if u.role ≠ "Admin" then
      (Except.error "Unauthorized, only admins can delete courses", db)
    else
      match db.courses.find? (fun c => c.id == id) with
      | none => (Except.error ("Course with ID " ++ toString id ++ " not found"), db)
      | some c =>
        (Except.ok c, { db with courses := db.courses.filter (fun c => !(c.id == id)) })

/-- Embedding of `register.resolve`: hashes the password and inserts the row; the context
user is destructured away (`{ client }`) and never consulted. `newId` is the
database-generated uuid returned by `RETURNING *`. -/
def register (md5 : String → String) (newId : String) (db : Db)
    (_ctxUser : Option UserRow) (username password role : String) :
    Except String UserRow × Db :=
  let hashedPassword := md5 password
  let row : UserRow := { id := newId, username := username,
                         password := hashedPassword, role := role }
  (Except.ok row, { db with users := db.users ++ [row] })

/-- Embedding of `login.resolve`: looks up the user by username (`rows[0]`), throws
'User not found' for an unknown username, compares the md5 of the supplied
password against the stored digest, throws 'Incorrect password' on mismatch,
and returns `generateToken(user)` — the token over the WHOLE stored row. The
context user is never consulted. -/
def login (md5 : String → String) (key : String) (now : Nat) (db : Db)
    (_ctxUser : Option UserRow) (username password : String) :
    Except String String :=
  match db.users.find? (fun u => u.username == username) with
  | none => Except.error "User not found"
  | some user =>
    if md5 password = user.password then Except.ok (generateToken user key now)
    else Except.error "Incorrect password"

/-! ### Helper lemmas -/

theorem mk_data (s : String) : String.mk s.data = s := rfl

/-- Applying `authenticate` to a header `"<w> <s>"` (both fragments space-free) just
verifies the second fragment: the scheme word `w` is never inspected. -/
theorem authenticate_two_fragments (w s key : String) (now : Nat)
    (hw : ' ' ∉ w.data) (hs : ' ' ∉ s.data) :
    authenticate (mkReq (some (w ++ " " ++ s))) key now =
      jwtVerify (some s) key now := by
  have hd : (w ++ " " ++ s).data = w.data ++ ' ' :: s.data := by
    rw [String.data_append, String.data_append,
      show (" " : String).data = [' '] from rfl, List.append_assoc]
    rfl
  show jwtVerify (((splitChar ' ' (w ++ " " ++ s).data).map String.mk).get? 1) key now = _
  rw [hd, splitChar_append ' ' w.data s.data hw, splitChar_of_not_mem ' ' s.data hs]
  simp [mk_data]

/-- Specialisation: the second fragment is a serialized token. -/
theorem authenticate_scheme_token (w key : String) (t : Jwt) (now : Nat)
    (hw : ' ' ∉ w.data) :
    authenticate (mkReq (some (w ++ " " ++ encodeJwt t))) key now =
      jwtVerify (some (encodeJwt t)) key now :=
  authenticate_two_fragments w (encodeJwt t) key now hw (space_not_mem_encodeJwt t)

/-- Unfolding lemma for `jwtVerify` on a present token. -/
theorem jwtVerify_some_eq (s key : String) (now : Nat) :
    jwtVerify (some s) key now =
      match decodeJwt s with
      | none => none
      | some t => if t.sig = key then if now < t.exp then some t else none else none := rfl

/-- Verifying a serialized token with the key it was signed with, before its
expiry, recovers exactly the token's claims. -/
theorem jwtVerify_encodeJwt (t : Jwt) (key : String) (now : Nat)
    (hsig : t.sig = key) (hexp : now < t.exp) :
    jwtVerify (some (encodeJwt t)) key now = some t := by
  rw [jwtVerify_some_eq, decodeJwt_encodeJwt]
  simp [hsig, hexp]

/-- Verifying a serialized token at or after its expiry fails. -/
theorem jwtVerify_encodeJwt_expired (t : Jwt) (key : String) (now : Nat)
    (hexp : ¬ now < t.exp) :
    jwtVerify (some (encodeJwt t)) key now = none := by
  rw [jwtVerify_some_eq, decodeJwt_encodeJwt]
  by_cases hs : t.sig = key <;> simp [hs, hexp]

/-- The not-found message of `deleteCourse` differs from its authorization
message, whatever the id. -/
theorem notFound_ne_authMsg (id : Int) :
    ("Course with ID " ++ toString id ++ " not found") ≠
      "Unauthorized, only admins can delete courses" := by
  intro h
  have h2 : (("Course with ID " ++ toString id) ++ " not found").data.head? =
      ("Unauthorized, only admins can delete courses" : String).data.head? := by
    rw [h]
  rw [String.data_append, String.data_append,
    show ("Course with ID " : String).data = 'C' :: ("ourse with ID " : String).data from rfl,
    show ("Unauthorized, only admins can delete courses" : String).data =
      'U' :: ("nauthorized, only admins can delete courses" : String).data from rfl] at h2
  simp at h2

/-! ### Concrete fixtures used by witnesses and counterexamples -/

/-- A stand-in for the external md5 on the inputs the examples exercise. -/
def md5c : String → String := fun s =>
  if s = "password" then "5f4dcc3b5aa765d61d8327deb882cf99"
  else "0cc175b9c0f1b6a831c399e269772661"

/-- A registered Regular user whose stored digest is md5c "password". -/
def aliceRow : UserRow :=
  { id := "7", username := "alice",
    password := "5f4dcc3b5aa765d61d8327deb882cf99", role := "Regular" }

/-- A registered Admin user. -/
def adminRow : UserRow :=
  { id := "8", username := "root",
    password := "21232f297a57a5a743894a0e4a801fc3", role := "Admin" }

/-- One stored course. -/
def course1 : Course :=
  { id := 1, title := "Lean", category := "PL", description := "d",
    duration := 5, outcome := "o" }

/-- The example database state. -/
def db0 : Db := { users := [aliceRow, adminRow], courses := [course1] }

/-- A token for alice signed with "secret" at clock 0. -/
def aliceJwt : Jwt := { payload := aliceRow, iat := 0, exp := 10800, sig := "secret" }

/-! ### C1 -/

/-- C1 counterexample: the token a successful login returns decodes to claims
that CONTAIN the stored password digest, refuting "no other credential data
(in particular, not the stored password digest) is encoded in the token". -/
theorem c1_counterexample :
    (login md5c "secret" 0 db0 none "alice" "password").map
      (fun tok => (decodeJwt tok).map (fun t => t.payload.password)) =
    Except.ok (some "5f4dcc3b5aa765d61d8327deb882cf99") := by
  have hl : login md5c "secret" 0 db0 none "alice" "password" =
      Except.ok (generateToken aliceRow "secret" 0) := rfl
  rw [hl]
  show Except.ok ((decodeJwt (generateToken aliceRow "secret" 0)).map
    (fun t => t.payload.password)) = _
  rw [show generateToken aliceRow "secret" 0 =
      encodeJwt { payload := aliceRow, iat := 0, exp := 0 + 10800, sig := "secret" } from rfl,
    decodeJwt_encodeJwt]
  rfl

/-- C1 (amended): the token issued at login serializes the ENTIRE stored user
row — id, username, role AND the stored password digest — plus iat = now and
an expiry of now + 3 hours, signed with the process-wide key. -/
theorem c1_token_serializes_full_row (md5 : String → String) (key : String)
    (now : Nat) (db : Db) (ctxUser : Option UserRow)
    (username password tok : String)
    (h : login md5 key now db ctxUser username password = Except.ok tok) :
    ∃ u : UserRow, db.users.find? (fun v => v.username == username) = some u ∧
      decodeJwt tok = some { payload := u, iat := now, exp := now + 10800, sig := key } := by
  unfold login at h
  cases hf : db.users.find? (fun v => v.username == username) with
  | none => rw [hf] at h; exact absurd h (by simp)
  | some u =>
    rw [hf] at h
    dsimp only at h
    by_cases hp : md5 password = u.password
    · rw [if_pos hp] at h
      refine ⟨u, rfl, ?_⟩
      have htok : tok = generateToken u key now := by
        injection h with h2
        exact h2.symm
      rw [htok, show generateToken u key now =
        encodeJwt { payload := u, iat := now, exp := now + 10800, sig := key } from rfl]
      exact decodeJwt_encodeJwt _
    · rw [if_neg hp] at h
      exact absurd h (by simp)

/-- C1 witness: concrete instance of the amended statement. -/
theorem c1_token_serializes_full_row_witness :
    ∃ u : UserRow, db0.users.find? (fun v => v.username == "alice") = some u ∧
      decodeJwt (generateToken aliceRow "secret" 0) =
        some { payload := u, iat := 0, exp := 0 + 10800, sig := "secret" } :=
  c1_token_serializes_full_row md5c "secret" 0 db0 none "alice" "password"
    (generateToken aliceRow "secret" 0) rfl

/-! ### C2 -/

/-- C2: the authorization table. addCourse and updateCourse succeed at the
authorization gate iff an identity is present (any role); deleteCourse escapes
its authorization error iff an identity is present with role Admin; register
always passes (never errors); login is computed identically whatever the
identity state of the context. -/
theorem c2_authorization_table (db : Db) (ctxUser : Option UserRow)
    (newCourseId : Int) (title category description : String) (duration : Int)
    (outcome : String) (uid : Int) (otitle ocategory odescription : Option String)
    (oduration : Option Int) (ooutcome : Option String) (did : Int)
    (md5 : String → String) (newUserId key : String) (now : Nat)
    (username password role : String) :
    ((addCourse newCourseId db ctxUser title category description duration
        outcome).1.isOk ↔ ctxUser.isSome) ∧
    ((updateCourse db ctxUser uid otitle ocategory odescription oduration
        ooutcome).1.isOk ↔ ctxUser.isSome) ∧
    ((deleteCourse db ctxUser did).1 ≠
        Except.error "Unauthorized, only admins can delete courses" ↔
      ∃ u, ctxUser = some u ∧ u.role = "Admin") ∧
    ((register md5 newUserId db ctxUser username password role).1.isOk) ∧
    (login md5 key now db ctxUser username password =
      login md5 key now db none username password) := by
  refine ⟨?_, ?_, ?_, rfl, rfl⟩
  · cases ctxUser <;> simp [addCourse, Except.isOk, Except.toBool]
  · cases ctxUser <;> simp [updateCourse, Except.isOk, Except.toBool]
  · cases ctxUser with
    | none => simp [deleteCourse]
    | some u =>
      by_cases hr : u.role = "Admin"
      · simp only [deleteCourse, hr, ne_eq, not_true_eq_false, if_false]
        cases hf : db.courses.find? (fun c => c.id == did) with
        | none =>
          simp only [hf]
          constructor
          · intro _; exact ⟨u, rfl, hr⟩
          · intro _ hcontra
            exact notFound_ne_authMsg did (Except.error.inj hcontra)
        | some c => simp [hf, hr]
      · simp [deleteCourse, hr]

/-! ### C3 -/

/-- C3 counterexample: a header using the scheme word "Basic" (not "Bearer")
followed by a valid token still authenticates to an identity, refuting
"not of the form Bearer <token> (e.g. a different scheme word) returns
anonymous". -/
theorem c3_counterexample :
    authenticate (mkReq (some ("Basic" ++ " " ++ encodeJwt aliceJwt))) "secret" 100 =
      some aliceJwt := by
  rw [authenticate_scheme_token "Basic" "secret" aliceJwt 100 (by decide)]
  exact jwtVerify_encodeJwt aliceJwt "secret" 100 rfl (by decide)

/-- C3 (amended): authenticate is a total function (failures are values, never
exceptions): an absent header, a header with no second space-separated
fragment, or a second fragment that is not a decodable token all yield
anonymous; but the scheme word is NOT validated — any header
`<word> <token>` with a valid unexpired token authenticates, whatever the
word. -/
theorem c3_authenticate_total_scheme_unchecked (key : String) (now : Nat) :
    (authenticate (mkReq none) key now = none) ∧
    (∀ h : String, ' ' ∉ h.data →
      authenticate (mkReq (some h)) key now = none) ∧
    (∀ w s : String, ' ' ∉ w.data → ' ' ∉ s.data → decodeJwt s = none →
      authenticate (mkReq (some (w ++ " " ++ s))) key now = none) ∧
    (∀ (w : String) (t : Jwt), ' ' ∉ w.data → t.sig = key → now < t.exp →
      authenticate (mkReq (some (w ++ " " ++ encodeJwt t))) key now =
        some t) := by
  refine ⟨rfl, ?_, ?_, ?_⟩
  · intro h hh
    show jwtVerify (((splitChar ' ' h.data).map String.mk).get? 1) key now = none
    rw [splitChar_of_not_mem ' ' h.data hh]
    rfl
  · intro w s hw hs hdec
    rw [authenticate_two_fragments w s key now hw hs]
    simp [jwtVerify, hdec]
  · intro w t hw hsig hexp
    rw [authenticate_scheme_token w key t now hw]
    exact jwtVerify_encodeJwt t key now hsig hexp

/-- C3 witness: concrete instances of the amended statement. -/
theorem c3_authenticate_total_scheme_unchecked_witness :
    (authenticate (mkReq (some "Bearer")) "secret" 0 = none) ∧
    (authenticate (mkReq (some ("Bearer" ++ " " ++ "oops"))) "secret" 0 = none) ∧
    (authenticate (mkReq (some ("Basic" ++ " " ++ encodeJwt aliceJwt))) "secret" 7 =
      some aliceJwt) :=
  ⟨(c3_authenticate_total_scheme_unchecked "secret" 0).2.1 "Bearer" (by decide),
   (c3_authenticate_total_scheme_unchecked "secret" 0).2.2.1 "Bearer" "oops"
     (by decide) (by decide) (by decide),
   (c3_authenticate_total_scheme_unchecked "secret" 7).2.2.2 "Basic" aliceJwt
     (by decide) rfl (by decide)⟩

/-! ### C4 -/

/-- C4 counterexample: an unknown username and a wrong password for a known
username surface DIFFERENT error messages, refuting "the failure surfaced to
the caller is the same single kind ... not distinguishable by the caller". -/
theorem c4_counterexample :
    login md5c "secret" 0 db0 none "bob" "password" = Except.error "User not found" ∧
    login md5c "secret" 0 db0 none "alice" "wrong" = Except.error "Incorrect password" ∧
    ("User not found" : String) ≠ "Incorrect password" :=
  ⟨rfl, rfl, by decide⟩

/-- C4 (amended): a login with an unknown username fails with 'User not found'
while a known username with a non-matching digest fails with
'Incorrect password' — two distinct, caller-distinguishable messages. -/
theorem c4_login_failures_distinguishable (md5 : String → String) (key : String)
    (now : Nat) (db : Db) (ctxUser : Option UserRow) (username password : String) :
    (db.users.find? (fun u => u.username == username) = none →
      login md5 key now db ctxUser username password = Except.error "User not found") ∧
    (∀ u, db.users.find? (fun v => v.username == username) = some u →
      md5 password ≠ u.password →
      login md5 key now db ctxUser username password = Except.error "Incorrect password") ∧
    ("User not found" : String) ≠ "Incorrect password" := by
  refine ⟨?_, ?_, by decide⟩
  · intro hf; simp [login, hf]
  · intro u hf hp; simp [login, hf, hp]

/-- C4 witness: concrete instances of the amended statement. -/
theorem c4_login_failures_distinguishable_witness :
    login md5c "secret" 0 db0 none "bob" "password" = Except.error "User not found" ∧
    login md5c "secret" 0 db0 none "alice" "wrong" = Except.error "Incorrect password" :=
  ⟨(c4_login_failures_distinguishable md5c "secret" 0 db0 none "bob" "password").1
      (by decide),
   (c4_login_failures_distinguishable md5c "secret" 0 db0 none "alice" "wrong").2.1
      aliceRow (by decide) (by decide)⟩

/-! ### C5 -/

/-- C5 counterexample: in the first deleteCourse resolver, a missing identity
and a valid Regular identity produce the IDENTICAL error, refuting "fails with
a Forbidden error kind that is distinguishable from the Unauthorized kind". -/
theorem c5_counterexample :
    (deleteCourse db0 none 1).1 =
      Except.error "Unauthorized, only admins can delete courses" ∧
    (deleteCourse db0 (some aliceRow) 1).1 =
      Except.error "Unauthorized, only admins can delete courses" :=
  ⟨rfl, rfl⟩

/-- C5 (amended): neither resolver has a distinct Forbidden kind. In the first
deleteCourse resolver a valid non-Admin identity fails with exactly the same
error as a missing identity; in the second resolver the two messages differ
("Unauthorized, only admins can delete courses" vs "Unauthorized"), so there
the caller can tell them apart only by message text. -/
theorem c5_no_forbidden_kind (db : Db) (u : UserRow) (id : Int)
    (hu : u.role ≠ "Admin") :
    ((deleteCourse db (some u) id).1 = (deleteCourse db none id).1) ∧
    ((deleteCourseV2 db (some u) id).1 =
      Except.error "Unauthorized, only admins can delete courses") ∧
    ((deleteCourseV2 db none id).1 = Except.error "Unauthorized") ∧
    ((deleteCourseV2 db (some u) id).1 ≠ (deleteCourseV2 db none id).1) := by
  have h2 : (deleteCourseV2 db (some u) id).1 =
      Except.error "Unauthorized, only admins can delete courses" := by
    simp [deleteCourseV2, hu]
  have h3 : (deleteCourseV2 db none id).1 = Except.error "Unauthorized" := rfl
  refine ⟨by simp [deleteCourse, hu], h2, h3, ?_⟩
  rw [h2, h3]
  intro hcontra
  exact absurd (Except.error.inj hcontra) (by decide)

/-- C5 witness: concrete instance of the amended statement. -/
theorem c5_no_forbidden_kind_witness :
    ((deleteCourse db0 (some aliceRow) 1).1 = (deleteCourse db0 none 1).1) ∧
    ((deleteCourseV2 db0 (some aliceRow) 1).1 =
      Except.error "Unauthorized, only admins can delete courses") ∧
    ((deleteCourseV2 db0 none 1).1 = Except.error "Unauthorized") ∧
    ((deleteCourseV2 db0 (some aliceRow) 1).1 ≠ (deleteCourseV2 db0 none 1).1) :=
  c5_no_forbidden_kind db0 aliceRow 1 (by decide)

/-! ### C6 -/

/-- C6: round trip: verifying a token freshly issued for an identity, with the
same key and before the token's expiry (3h = 10800 s), returns exactly that
identity — both at the token-service level (jwt.verify) and through
`authenticate` with a Bearer header. -/
theorem c6_verify_issue_roundtrip (u : UserRow) (key : String) (t tv : Nat)
    (h : tv < t + 10800) :
    (jwtVerify (some (generateToken u key t)) key tv).map Jwt.payload = some u ∧
    (authenticate (mkReq (some ("Bearer" ++ " " ++ generateToken u key t))) key tv).map
      Jwt.payload = some u := by
  have hgen : generateToken u key t =
      encodeJwt { payload := u, iat := t, exp := t + 10800, sig := key } := rfl
  have hv : jwtVerify (some (generateToken u key t)) key tv =
      some { payload := u, iat := t, exp := t + 10800, sig := key } := by
    rw [hgen]
    exact jwtVerify_encodeJwt _ key tv rfl h
  constructor
  · rw [hv]; rfl
  · rw [hgen, authenticate_scheme_token "Bearer" key _ tv (by decide),
      jwtVerify_encodeJwt _ key tv rfl h]
    rfl

/-- C6 witness: concrete instance of the round trip. -/
theorem c6_verify_issue_roundtrip_witness :
    (jwtVerify (some (generateToken aliceRow "secret" 0)) "secret" 100).map
      Jwt.payload = some aliceRow ∧
    (authenticate (mkReq (some ("Bearer" ++ " " ++ generateToken aliceRow "secret" 0)))
      "secret" 100).map Jwt.payload = some aliceRow :=
  c6_verify_issue_roundtrip aliceRow "secret" 0 100 (by decide)

/-! ### C7 -/

/-- C7: for an Admin identity, deleteCourse fetches the target record first:
if it is absent the call fails with the not-found error and the database is
untouched; if it is present the call removes the rows with that id and
returns the pre-deletion snapshot (an element of the original table). -/
theorem c7_delete_fetch_first (db : Db) (u : UserRow) (id : Int)
    (hadmin : u.role = "Admin") :
    (db.courses.find? (fun c => c.id == id) = none →
      deleteCourse db (some u) id =
        (Except.error ("Course with ID " ++ toString id ++ " not found"), db)) ∧
    (∀ c, db.courses.find? (fun c0 => c0.id == id) = some c →
      deleteCourse db (some u) id =
        (Except.ok c, { db with courses := db.courses.filter (fun c0 => !(c0.id == id)) }) ∧
      c ∈ db.courses) := by
  constructor
  · intro hf
    simp [deleteCourse, hadmin, hf]
  · intro c hf
    exact ⟨by simp [deleteCourse, hadmin, hf], List.mem_of_find?_eq_some hf⟩

/-- C7 witness: concrete instances (absent id 999, present id 1). -/
theorem c7_delete_fetch_first_witness :
    (deleteCourse db0 (some adminRow) 999 =
      (Except.error ("Course with ID " ++ toString (999 : Int) ++ " not found"), db0)) ∧
    (deleteCourse db0 (some adminRow) 1 =
      (Except.ok course1,
        { db0 with courses := db0.courses.filter (fun c0 => !(c0.id == (1 : Int))) }) ∧
      course1 ∈ db0.courses) :=
  ⟨(c7_delete_fetch_first db0 adminRow 999 rfl).1 (by decide),
   (c7_delete_fetch_first db0 adminRow 1 rfl).2 course1 (by decide)⟩

/-! ### C8 -/

/-- C8: a token issued at clock T is rejected when verified at clock
T + 3h + ε for any ε > 0: jwt.verify fails and `authenticate` resolves the
request to anonymous. -/
theorem c8_expired_token_rejected (u : UserRow) (key : String) (t e : Nat)
    (_he : 0 < e) :
    jwtVerify (some (generateToken u key t)) key (t + 10800 + e) = none ∧
    authenticate (mkReq (some ("Bearer" ++ " " ++ generateToken u key t))) key
      (t + 10800 + e) = none := by
  have hgen : generateToken u key t =
      encodeJwt { payload := u, iat := t, exp := t + 10800, sig := key } := rfl
  have hexp : ¬ t + 10800 + e <
      ({ payload := u, iat := t, exp := t + 10800, sig := key } : Jwt).exp := by
    show ¬ t + 10800 + e < t + 10800
    omega
  constructor
  · rw [hgen]
    exact jwtVerify_encodeJwt_expired _ key _ hexp
  · rw [hgen, authenticate_scheme_token "Bearer" key _ _ (by decide)]
    exact jwtVerify_encodeJwt_expired _ key _ hexp

/-- C8 witness: concrete instance at T = 0, ε = 1. -/
theorem c8_expired_token_rejected_witness :
    jwtVerify (some (generateToken aliceRow "secret" 0)) "secret" (0 + 10800 + 1) = none ∧
    authenticate (mkReq (some ("Bearer" ++ " " ++ generateToken aliceRow "secret" 0)))
      "secret" (0 + 10800 + 1) = none :=
  c8_expired_token_rejected aliceRow "secret" 0 1 (by decide)

/-! ### C9 -/

/-- C9: register consults no identity: with an anonymous context it succeeds
for any username/password, accepts the role argument Admin, and inserts the
Admin credential; and its outcome is identical whatever the context identity. -/
theorem c9_register_anonymous_admin (md5 : String → String) (newId : String)
    (db : Db) (username password role : String) :
    ((register md5 newId db none username password role).1.isOk) ∧
    ((register md5 newId db none username password "Admin").1 =
      Except.ok (UserRow.mk newId username (md5 password) "Admin")) ∧
    (UserRow.mk newId username (md5 password) "Admin" ∈
      (register md5 newId db none username password "Admin").2.users) ∧
    (∀ ctxUser : Option UserRow,
      register md5 newId db ctxUser username password role =
        register md5 newId db none username password role) := by
  refine ⟨rfl, rfl, ?_, fun _ => rfl⟩
  simp [register]

/-! ### C10 -/

/-- C10: updateCourse with an identity present follows COALESCE semantics:
an omitted (null) field argument leaves the stored field unchanged and a
non-null argument overwrites it; the updated row keeps its id, rows with
other ids survive unchanged, the table's length is preserved, and the users
table is untouched. -/
theorem c10_update_coalesce_frame (db : Db) (u : UserRow) (id : Int)
    (title category description : Option String) (duration : Option Int)
    (outcome : Option String) :
    ((updateCourse db (some u) id title category description duration outcome).2.users =
      db.users) ∧
    ((updateCourse db (some u) id title category description duration
        outcome).2.courses.length = db.courses.length) ∧
    (∀ c ∈ db.courses, ¬ c.id = id →
      c ∈ (updateCourse db (some u) id title category description duration
        outcome).2.courses) ∧
    (∀ c ∈ db.courses, c.id = id →
      ∃ c' ∈ (updateCourse db (some u) id title category description duration
          outcome).2.courses,
        c'.id = c.id ∧
        (title = none → c'.title = c.title) ∧
        (∀ v, title = some v → c'.title = v) ∧
        (category = none → c'.category = c.category) ∧
        (∀ v, category = some v → c'.category = v) ∧
        (description = none → c'.description = c.description) ∧
        (∀ v, description = some v → c'.description = v) ∧
        (duration = none → c'.duration = c.duration) ∧
        (∀ v, duration = some v → c'.duration = v) ∧
        (outcome = none → c'.outcome = c.outcome) ∧
        (∀ v, outcome = some v → c'.outcome = v)) := by
  have hc : (updateCourse db (some u) id title category description duration
      outcome).2.courses =
    db.courses.map (fun c => if c.id = id then
      coalesceCourse c title category description duration outcome else c) := rfl
  refine ⟨rfl, ?_, ?_, ?_⟩
  · rw [hc, List.length_map]
  · intro c hmem hne
    rw [hc]
    exact List.mem_map.mpr ⟨c, hmem, by rw [if_neg hne]⟩
  · intro c hmem heq
    rw [hc]
    refine ⟨coalesceCourse c title category description duration outcome,
      List.mem_map.mpr ⟨c, hmem, by rw [if_pos heq]⟩, rfl, ?_⟩
    exact ⟨fun h => by simp [coalesceCourse, h], fun v h => by simp [coalesceCourse, h],
           fun h => by simp [coalesceCourse, h], fun v h => by simp [coalesceCourse, h],
           fun h => by simp [coalesceCourse, h], fun v h => by simp [coalesceCourse, h],
           fun h => by simp [coalesceCourse, h], fun v h => by simp [coalesceCourse, h],
           fun h => by simp [coalesceCourse, h], fun v h => by simp [coalesceCourse, h]⟩

/-- C10 witness: concrete instances — a row with a different id survives an
update aimed at id 5, and updating id 1 with only a new title keeps every
other field of the stored row. -/
theorem c10_update_coalesce_frame_witness :
    (course1 ∈ (updateCourse db0 (some aliceRow) 5 (some "T2") none none none
      none).2.courses) ∧
    (∃ c' ∈ (updateCourse db0 (some aliceRow) 1 (some "T2") none none none
        none).2.courses,
      c'.id = course1.id ∧
      ((some "T2" : Option String) = none → c'.title = course1.title) ∧
      (∀ v, (some "T2" : Option String) = some v → c'.title = v) ∧
      ((none : Option String) = none → c'.category = course1.category) ∧
      (∀ v, (none : Option String) = some v → c'.category = v) ∧
      ((none : Option String) = none → c'.description = course1.description) ∧
      (∀ v, (none : Option String) = some v → c'.description = v) ∧
      ((none : Option Int) = none → c'.duration = course1.duration) ∧
      (∀ v, (none : Option Int) = some v → c'.duration = v) ∧
      ((none : Option String) = none → c'.outcome = course1.outcome) ∧
      (∀ v, (none : Option String) = some v → c'.outcome = v)) :=
  ⟨(c10_update_coalesce_frame db0 aliceRow 5 (some "T2") none none none
      none).2.2.1 course1 (by decide) (by decide),
   (c10_update_coalesce_frame db0 aliceRow 1 (some "T2") none none none
      none).2.2.2 course1 (by decide) rfl⟩

end GqlCourses
